import Mathlib

/-!
Verification of the LearnSphere core engine (src/src/core.ts).

Numbers of the source (IEEE-754 doubles carrying exact small decimal
coefficients) are embedded as rationals, JS objects used as string-keyed
maps as association lists, thrown exceptions as `Except`, and the mutable
`this.state` of the engine class as explicit state passing.
-/

namespace LearnSphere

/-- The four lawful signal channels, in RVKA order (src line 10).
Channels are strings in the embedding because TypeScript's
`SignalChannel` values are strings and `selectNextChannel` is observably
total on arbitrary strings through `indexOf`. -/
def RVKA_ORDER : List String := ["reading", "visual", "kinesthetic", "auditory"]

/-- Learner mode (src line 17). -/
inductive Mode where
  | assessment
  | sandbox
deriving DecidableEq

/-- A node of a universe's skill graph (src lines 19-24). -/
structure SkillNode where
  id : String
  label : String
  universeId : String
  baseDifficulty : ℚ
deriving DecidableEq

/-- A directed dependency edge (src lines 26-30); the source field `from`
is a Lean keyword, hence `fromSkill`/`toSkill`. -/
structure SkillEdge where
  fromSkill : String
  toSkill : String
  dependencyWeight : ℚ
deriving DecidableEq

/-- A difficulty arc (src lines 32-36). -/
structure DifficultyArc where
  skillId : String
  level : ℚ
  complexityWeight : ℚ
deriving DecidableEq

/-- The skill graph carried by a universe (src lines 41-45). -/
structure SkillGraph where
  nodes : List SkillNode
  edges : List SkillEdge
  arcs : List DifficultyArc
deriving DecidableEq

/-- A registered curriculum universe (src lines 38-47). -/
structure Universe where
  id : String
  label : String
  skillGraph : SkillGraph
  masteryThreshold : ℚ
deriving DecidableEq

/-- An observed performance signal (src lines 49-56). -/
structure SignalEnvelope where
  channel : String
  observedAt : ℚ
  value : ℚ
  reasoningQuality : ℚ
  transferEvidence : ℚ
  misconceptionTag : Option String
deriving DecidableEq

/-- Per (learner, skill) mastery state (src lines 58-69).
`misconceptionCounts` is a `Record<string, number>`, embedded as an
association list in object insertion order. -/
structure SkillState where
  skillId : String
  stability : ℚ
  transfer : ℚ
  momentum : ℚ
  reasoningQuality : ℚ
  recencyWeight : ℚ
  fragility : ℚ
  misconceptionCounts : List (String × ℚ)
  lastUpdatedAt : ℚ
  masteryScore : ℚ
deriving DecidableEq

/-- One entry of a learner's timeline (src line 75). -/
structure TimelineEntry where
  skillId : String
  timestamp : ℚ
  masteryScore : ℚ
deriving DecidableEq

/-- A learner profile (src lines 71-76). -/
structure LearnerProfile where
  learnerId : String
  mode : Mode
  skillStates : List (String × SkillState)
  timeline : List TimelineEntry
deriving DecidableEq

/-- The process-wide engine state (src lines 78-81). -/
structure EngineState where
  universes : List (String × Universe)
  learners : List (String × LearnerProfile)
deriving DecidableEq

/-- The unit of input (src lines 83-89). -/
structure AssessmentEvent where
  learnerId : String
  universeId : String
  skillId : String
  expectedNextChannel : String
  signal : SignalEnvelope
deriving DecidableEq

/-- `Math.min` on (non-NaN) numbers. -/
def jsMin (a b : ℚ) : ℚ := if a ≤ b then a else b

/-- `Math.max` on (non-NaN) numbers. -/
def jsMax (a b : ℚ) : ℚ := if b ≤ a then a else b

/-- `clamp` (src line 91): `Math.max(lo, Math.min(hi, n))`.  The source's
default bounds `0, 1` are passed explicitly at every call site. -/
def clamp (n lo hi : ℚ) : ℚ := jsMax lo (jsMin hi n)

/-- The lazily constructed default skill state (src lines 93-104). -/
def emptySkillState (skillId : String) : SkillState :=
  { skillId := skillId
    stability := 0
    transfer := 0
    momentum := 0
    reasoningQuality := 0
    recencyWeight := 0
    fragility := 1
    misconceptionCounts := []
    lastUpdatedAt := 0
    masteryScore := 0 }

/-- Key update on a string-keyed object: overwrite an existing key in
place, or append a new key at the end (JS object assignment semantics). -/
def setAssoc {α : Type} (k : String) (v : α) : List (String × α) → List (String × α)
  | [] => [(k, v)]
  | p :: rest => if p.1 = k then (k, v) :: rest else p :: setAssoc k v rest

/-- Elapsed days used by the transition (src lines 194-196); the source's
`previous.lastUpdatedAt ? _ : 0` tests JS truthiness of the number, i.e.
whether it is nonzero. -/
def elapsedDaysOf (previous : SkillState) (observedAt : ℚ) : ℚ :=
  if previous.lastUpdatedAt ≠ 0 then
    max 0 ((observedAt - previous.lastUpdatedAt) / (1000 * 60 * 60 * 24))
  else 0

/-- The decay factor of the transition (src line 197). -/
def decayOf (previous : SkillState) (observedAt : ℚ) : ℚ :=
  clamp (1 - elapsedDaysOf previous observedAt * 0.03) 0.5 1

/-- Misconception bookkeeping of the transition (src lines 209-213):
`if (signal.misconceptionTag)` is a JS truthiness test, so an absent tag
AND a present-but-empty tag both skip the increment. -/
def bumpTag (counts : List (String × ℚ)) (tag : Option String) : List (String × ℚ) :=
  match tag with
  | none => counts
  | some t =>
    if t = "" then counts
    else setAssoc t (((counts.lookup t).getD 0) + 1) counts

/-- Misconception pressure (src lines 215-219): sum over stored tags of
`min(0.25, count * 0.03)`. -/
def pressureOf (counts : List (String × ℚ)) : ℚ :=
  (counts.map (fun p => jsMin 0.25 (p.2 * 0.03))).sum

/-- The skill-state transition function (src lines 193-245). -/
def transitionSkillState (previous : SkillState) (signal : SignalEnvelope) : SkillState :=
  let decay := decayOf previous signal.observedAt
  let recencyWeight := clamp (0.7 * previous.recencyWeight * decay + 0.3 * 1) 0 1
  let stability := clamp (0.65 * previous.stability * decay + 0.35 * signal.value) 0 1
  let transfer := clamp (0.7 * previous.transfer * decay + 0.3 * signal.transferEvidence) 0 1
  let reasoningQuality :=
    clamp (0.6 * previous.reasoningQuality * decay + 0.4 * signal.reasoningQuality) 0 1
  let momentumDelta := signal.value - previous.stability
  let momentum :=
    clamp (0.75 * previous.momentum * decay + 0.25 * ((momentumDelta + 1) / 2)) 0 1
  let misconceptionCounts := bumpTag previous.misconceptionCounts signal.misconceptionTag
  let misconceptionPressure := pressureOf misconceptionCounts
  let fragility :=
    clamp (1 - (0.5 * stability + 0.2 * transfer + 0.3 * reasoningQuality)) 0 1
  let penalizedFragility := clamp (fragility + misconceptionPressure * 0.2) 0 1
  let masteryScore :=
    clamp (0.28 * stability + 0.22 * transfer + 0.18 * momentum +
      0.2 * reasoningQuality + 0.12 * recencyWeight - 0.18 * penalizedFragility) 0 1
  { skillId := previous.skillId
    stability := stability
    transfer := transfer
    momentum := momentum
    reasoningQuality := reasoningQuality
    recencyWeight := recencyWeight
    fragility := penalizedFragility
    misconceptionCounts := misconceptionCounts
    lastUpdatedAt := signal.observedAt
    masteryScore := masteryScore }

theorem clamp_lo_le (n lo hi : ℚ) : lo ≤ clamp n lo hi := by
  simp only [clamp, jsMax, jsMin]
  split_ifs <;> linarith

theorem clamp_le_hi (n lo hi : ℚ) (h : lo ≤ hi) : clamp n lo hi ≤ hi := by
  simp only [clamp, jsMax, jsMin]
  split_ifs <;> linarith

theorem transition_stability (p : SkillState) (s : SignalEnvelope) :
    (transitionSkillState p s).stability =
      clamp (0.65 * p.stability * decayOf p s.observedAt + 0.35 * s.value) 0 1 := rfl

theorem transition_transfer (p : SkillState) (s : SignalEnvelope) :
    (transitionSkillState p s).transfer =
      clamp (0.7 * p.transfer * decayOf p s.observedAt + 0.3 * s.transferEvidence) 0 1 := rfl

theorem transition_reasoningQuality (p : SkillState) (s : SignalEnvelope) :
    (transitionSkillState p s).reasoningQuality =
      clamp (0.6 * p.reasoningQuality * decayOf p s.observedAt + 0.4 * s.reasoningQuality) 0 1 :=
  rfl

theorem transition_recencyWeight (p : SkillState) (s : SignalEnvelope) :
    (transitionSkillState p s).recencyWeight =
      clamp (0.7 * p.recencyWeight * decayOf p s.observedAt + 0.3 * 1) 0 1 := rfl

theorem transition_momentum (p : SkillState) (s : SignalEnvelope) :
    (transitionSkillState p s).momentum =
      clamp (0.75 * p.momentum * decayOf p s.observedAt +
        0.25 * ((s.value - p.stability + 1) / 2)) 0 1 := rfl

theorem transition_lastUpdatedAt (p : SkillState) (s : SignalEnvelope) :
    (transitionSkillState p s).lastUpdatedAt = s.observedAt := rfl

/-- C2: for every previous state and every signal envelope, including
ones whose numeric inputs lie outside [0,1], each of the seven numeric
output fields of `transitionSkillState` lies in [0,1]. -/
theorem c2_transition_fields_bounded (p : SkillState) (s : SignalEnvelope) :
    (0 ≤ (transitionSkillState p s).stability ∧ (transitionSkillState p s).stability ≤ 1) ∧
    (0 ≤ (transitionSkillState p s).transfer ∧ (transitionSkillState p s).transfer ≤ 1) ∧
    (0 ≤ (transitionSkillState p s).momentum ∧ (transitionSkillState p s).momentum ≤ 1) ∧
    (0 ≤ (transitionSkillState p s).reasoningQuality ∧
      (transitionSkillState p s).reasoningQuality ≤ 1) ∧
    (0 ≤ (transitionSkillState p s).recencyWeight ∧
      (transitionSkillState p s).recencyWeight ≤ 1) ∧
    (0 ≤ (transitionSkillState p s).fragility ∧ (transitionSkillState p s).fragility ≤ 1) ∧
    (0 ≤ (transitionSkillState p s).masteryScore ∧
      (transitionSkillState p s).masteryScore ≤ 1) := by
  refine ⟨⟨?_, ?_⟩, ⟨?_, ?_⟩, ⟨?_, ?_⟩, ⟨?_, ?_⟩, ⟨?_, ?_⟩, ⟨?_, ?_⟩, ⟨?_, ?_⟩⟩ <;>
    first
      | exact clamp_lo_le _ _ _
      | exact clamp_le_hi _ _ _ (by norm_num)

/-- C7: the decay factor used by the transition function always lies in
[1/2, 1], and equals `clamp (1 - elapsedDays * 0.03) 0.5 1` where
`elapsedDays` is `max 0 ((observedAt - lastUpdatedAt) / 86400000)` when
`lastUpdatedAt` is nonzero and `0` otherwise; the last conjunct anchors
`decayOf` to the blend actually computed by `transitionSkillState`. -/
theorem c7_decay_floor (p : SkillState) (s : SignalEnvelope) :
    (0.5 ≤ decayOf p s.observedAt ∧ decayOf p s.observedAt ≤ 1) ∧
    decayOf p s.observedAt =
      clamp (1 - elapsedDaysOf p s.observedAt * 0.03) 0.5 1 ∧
    elapsedDaysOf p s.observedAt =
      (if p.lastUpdatedAt ≠ 0 then
        max 0 ((s.observedAt - p.lastUpdatedAt) / (1000 * 60 * 60 * 24))
      else 0) ∧
    (transitionSkillState p s).recencyWeight =
      clamp (0.7 * p.recencyWeight * decayOf p s.observedAt + 0.3 * 1) 0 1 := by
  refine ⟨⟨clamp_lo_le _ _ _, clamp_le_hi _ _ _ (by norm_num)⟩, rfl, rfl, rfl⟩

/-- C10: whenever `previous.lastUpdatedAt = 0`, the transition takes the
elapsed time to be zero and the decay factor to be one, whatever the new
signal's `observedAt` is — a stored timestamp of exactly 0 is
indistinguishable from "never updated". -/
theorem c10_zero_timestamp_suppresses_decay (p : SkillState) (s : SignalEnvelope)
    (h : p.lastUpdatedAt = 0) :
    elapsedDaysOf p s.observedAt = 0 ∧ decayOf p s.observedAt = 1 ∧
    (transitionSkillState p s).stability =
      clamp (0.65 * p.stability * 1 + 0.35 * s.value) 0 1 := by
  have he : elapsedDaysOf p s.observedAt = 0 := by
    simp [elapsedDaysOf, h]
  have hd : decayOf p s.observedAt = 1 := by
    rw [decayOf, he]
    norm_num [clamp, jsMax, jsMin]
  refine ⟨he, hd, ?_⟩
  rw [transition_stability, hd]

theorem c10_witness :
    (emptySkillState "s1").lastUpdatedAt = 0 ∧
    elapsedDaysOf (emptySkillState "s1")
      ({ channel := "reading", observedAt := 5000, value := 1,
         reasoningQuality := 1, transferEvidence := 1,
         misconceptionTag := none } : SignalEnvelope).observedAt = 0 :=
  ⟨rfl,
    (c10_zero_timestamp_suppresses_decay (emptySkillState "s1")
      { channel := "reading", observedAt := 5000, value := 1,
        reasoningQuality := 1, transferEvidence := 1,
        misconceptionTag := none } rfl).1⟩

/-- The two error kinds thrown by `applyAssessmentEvent`
(src lines 160-169), as a tagged variant carrying the interpolated data. -/
inductive ApplyError where
  | channelContractViolation (expected actual : String)
  | unregisteredUniverse (universeId : String)
deriving DecidableEq

/-- The interpolated message of each thrown `Error` (src lines 162, 168). -/
def errorMessage : ApplyError → String
  | ApplyError.channelContractViolation expected actual =>
      "RVKA contract violation: expected " ++ expected ++ ", got " ++ actual
  | ApplyError.unregisteredUniverse universeId =>
      "Universe " ++ universeId ++ " is not registered"

/-- The fresh profile created by `ensureLearner` (src lines 121-126). -/
def freshLearner (learnerId : String) (mode : Mode) : LearnerProfile :=
  { learnerId := learnerId, mode := mode, skillStates := [], timeline := [] }

/-- `ensureLearner` (src lines 119-128); the TypeScript default argument
`mode = 'assessment'` is passed explicitly by the callers below. -/
def ensureLearner (s : EngineState) (learnerId : String) (mode : Mode) : EngineState :=
  match s.learners.lookup learnerId with
  | some _ => s
  | none => { s with learners := setAssoc learnerId (freshLearner learnerId mode) s.learners }

/-- `getLearner` (src lines 184-187): ensure, then return the (now
present) profile together with the possibly grown state. -/
def getLearner (s : EngineState) (learnerId : String) : LearnerProfile × EngineState :=
  let s1 := ensureLearner s learnerId Mode.assessment
  match s1.learners.lookup learnerId with
  | some p => (p, s1)
  | none => (freshLearner learnerId Mode.assessment, s1)

/-- `registerUniverse` (src lines 115-117): unconditional upsert by id. -/
def registerUniverse (s : EngineState) (u : Universe) : EngineState :=
  { s with universes := setAssoc u.id u s.universes }

/-- `setMode` (src lines 130-133): ensure, then overwrite the mode. -/
def setMode (s : EngineState) (learnerId : String) (mode : Mode) : EngineState :=
  let s1 := ensureLearner s learnerId Mode.assessment
  match s1.learners.lookup learnerId with
  | some p => { s1 with learners := setAssoc learnerId { p with mode := mode } s1.learners }
  | none => s1

/-- `selectNextChannel` (src lines 138-149).  `jsIndexOf` mirrors
`Array.prototype.indexOf`, returning -1 on a missing element; the source's
`if (!previousChannel)` truthiness test treats `undefined` like the empty
string, both of which also fall into the `index < 0` wrap case. -/
def jsIndexOf (c : String) : List String → Int
  | [] => -1
  | x :: xs =>
    if x = c then 0
    else
      let r := jsIndexOf c xs
      if r < 0 then -1 else r + 1

/-- `selectNextChannel` (src lines 138-149): pure, no engine state. -/
def selectNextChannel (previousChannel : Option String) : String :=
  match previousChannel with
  | none => RVKA_ORDER.headD "reading"
  | some c =>
    let index := jsIndexOf c RVKA_ORDER
    if index < 0 ∨ index = (RVKA_ORDER.length : Int) - 1 then RVKA_ORDER.headD "reading"
    else RVKA_ORDER.getD (index.toNat + 1) "reading"

/-- The successful-path update of the learner profile inside
`applyAssessmentEvent` (src lines 171-179). -/
def updatedLearner (learner : LearnerProfile) (event : AssessmentEvent) : LearnerProfile :=
  let previous := (learner.skillStates.lookup event.skillId).getD (emptySkillState event.skillId)
  let next := transitionSkillState previous event.signal
  { learner with
    skillStates := setAssoc event.skillId next learner.skillStates
    timeline := learner.timeline ++
      [{ skillId := event.skillId
         timestamp := event.signal.observedAt
         masteryScore := next.masteryScore }] }

/-- `applyAssessmentEvent` (src lines 154-182): the gated write path.
Throwing is embedded as `Except.error`; the state component of the result
is the engine state after the call (mutations via `this.state`). -/
def applyAssessmentEvent (s : EngineState) (event : AssessmentEvent) :
    Except ApplyError LearnerProfile × EngineState :=
  let learner := (getLearner s event.learnerId).1
  let s1 := (getLearner s event.learnerId).2
  if learner.mode = Mode.sandbox then (Except.ok learner, s1)
  else if event.signal.channel ≠ event.expectedNextChannel then
    (Except.error
      (ApplyError.channelContractViolation event.expectedNextChannel event.signal.channel), s1)
  else
    match s1.universes.lookup event.universeId with
    | none => (Except.error (ApplyError.unregisteredUniverse event.universeId), s1)
    | some _ =>
      let learner' := updatedLearner learner event
      (Except.ok learner', { s1 with learners := setAssoc event.learnerId learner' s1.learners })

theorem lookup_setAssoc_self {α : Type} (k : String) (v : α) (m : List (String × α)) :
    (setAssoc k v m).lookup k = some v := by
  induction m with
  | nil => simp [setAssoc, List.lookup]
  | cons p rest ih =>
    by_cases h : p.1 = k
    · simp [setAssoc, h, List.lookup]
    · simp only [setAssoc, if_neg h, List.lookup]
      have : (k == p.1) = false := by
        simp [beq_iff_eq]
        exact fun hk => h hk.symm
      simp [this, ih]

theorem lookup_setAssoc_ne {α : Type} (k l : String) (v : α) (m : List (String × α))
    (h : l ≠ k) : (setAssoc k v m).lookup l = m.lookup l := by
  induction m with
  | nil =>
    simp only [setAssoc, List.lookup]
    have : (l == k) = false := by simp [beq_iff_eq, h]
    simp [this]
  | cons p rest ih =>
    by_cases hp : p.1 = k
    · subst hp
      simp only [setAssoc, if_pos rfl, List.lookup]
      have : (l == p.1) = false := by simp [beq_iff_eq, h]
      simp [this]
    · simp only [setAssoc, if_neg hp, List.lookup]
      by_cases hl : l = p.1
      · simp [hl]
      · have : (l == p.1) = false := by simp [beq_iff_eq, hl]
        simp [this, ih]

theorem ensureLearner_universes (s : EngineState) (learnerId : String) (mode : Mode) :
    (ensureLearner s learnerId mode).universes = s.universes := by
  cases h : s.learners.lookup learnerId <;> simp [ensureLearner, h]

theorem ensureLearner_lookup_some (s : EngineState) (learnerId : String) (mode : Mode)
    (p : LearnerProfile) (h : s.learners.lookup learnerId = some p) :
    ensureLearner s learnerId mode = s := by
  simp [ensureLearner, h]

theorem ensureLearner_lookup_none (s : EngineState) (learnerId : String) (mode : Mode)
    (h : s.learners.lookup learnerId = none) :
    (ensureLearner s learnerId mode).learners.lookup learnerId =
      some (freshLearner learnerId mode) := by
  simp [ensureLearner, h, lookup_setAssoc_self]

theorem ensureLearner_preserves (s : EngineState) (learnerId l : String) (mode : Mode)
    (q : LearnerProfile) (h : s.learners.lookup l = some q) :
    (ensureLearner s learnerId mode).learners.lookup l = some q := by
  cases hid : s.learners.lookup learnerId with
  | some p => simp [ensureLearner, hid, h]
  | none =>
    have hne : l ≠ learnerId := by
      intro he
      rw [he, hid] at h
      exact Option.noConfusion h
    simp [ensureLearner, hid, lookup_setAssoc_ne _ _ _ _ hne, h]

theorem getLearner_of_some (s : EngineState) (learnerId : String) (p : LearnerProfile)
    (h : s.learners.lookup learnerId = some p) :
    getLearner s learnerId = (p, s) := by
  simp [getLearner, ensureLearner_lookup_some s learnerId Mode.assessment p h, h]

theorem getLearner_of_none (s : EngineState) (learnerId : String)
    (h : s.learners.lookup learnerId = none) :
    getLearner s learnerId =
      (freshLearner learnerId Mode.assessment, ensureLearner s learnerId Mode.assessment) := by
  simp [getLearner, ensureLearner_lookup_none s learnerId Mode.assessment h]

theorem getLearner_snd (s : EngineState) (learnerId : String) :
    (getLearner s learnerId).2 = ensureLearner s learnerId Mode.assessment := by
  cases h : (ensureLearner s learnerId Mode.assessment).learners.lookup learnerId <;>
    simp [getLearner, h]

theorem applyAssessmentEvent_error_state (s : EngineState) (e : AssessmentEvent)
    (err : ApplyError) (s2 : EngineState)
    (h : applyAssessmentEvent s e = (Except.error err, s2)) :
    s2 = ensureLearner s e.learnerId Mode.assessment := by
  simp only [applyAssessmentEvent] at h
  split at h
  · simp at h
  · split at h
    · rw [Prod.mk.injEq] at h
      rw [← h.2, getLearner_snd]
    · split at h
      · rw [Prod.mk.injEq] at h
        rw [← h.2, getLearner_snd]
      · simp at h

/-- Shared concrete example values used by witnesses and counterexamples. -/
def exUniverse : Universe :=
  { id := "u1"
    label := "U1"
    skillGraph := { nodes := [], edges := [], arcs := [] }
    masteryThreshold := 0.8 }

def exSignalOk : SignalEnvelope :=
  { channel := "reading"
    observedAt := 1000
    value := 0.9
    reasoningQuality := 0.8
    transferEvidence := 0.7
    misconceptionTag := none }

def exEventOk : AssessmentEvent :=
  { learnerId := "l1"
    universeId := "u1"
    skillId := "s1"
    expectedNextChannel := "reading"
    signal := exSignalOk }

def exEventMismatch : AssessmentEvent :=
  { exEventOk with signal := { exSignalOk with channel := "visual" } }

def emptyEngine : EngineState := { universes := [], learners := [] }

def exEngineAssessment : EngineState :=
  { universes := [("u1", exUniverse)]
    learners := [("l1", freshLearner "l1" Mode.assessment)] }

def exEngineSandbox : EngineState :=
  { universes := []
    learners := [("l1", freshLearner "l1" Mode.sandbox)] }

/-- C3 (amended): a failing `applyAssessmentEvent` call leaves the
universes map and every pre-existing learner profile (hence every
skillStates map and every timeline) untouched; the one mutation the code
does perform before the channel check is the lazy creation, inside
`getLearner`, of a fresh empty profile for `event.learnerId` when that
learner was absent — so the post-failure state is exactly the pre-state
with `ensureLearner` applied. -/
theorem c3_failure_mutates_only_lazy_creation (s : EngineState) (e : AssessmentEvent)
    (err : ApplyError) (s2 : EngineState)
    (h : applyAssessmentEvent s e = (Except.error err, s2)) :
    s2 = ensureLearner s e.learnerId Mode.assessment ∧
    s2.universes = s.universes ∧
    (∀ l q, s.learners.lookup l = some q → s2.learners.lookup l = some q) ∧
    (s.learners.lookup e.learnerId = none →
      s2.learners.lookup e.learnerId = some (freshLearner e.learnerId Mode.assessment)) := by
  have hs2 := applyAssessmentEvent_error_state s e err s2 h
  subst hs2
  refine ⟨rfl, ensureLearner_universes s e.learnerId Mode.assessment, ?_, ?_⟩
  · intro l q hq
    exact ensureLearner_preserves s e.learnerId l Mode.assessment q hq
  · intro hn
    exact ensureLearner_lookup_none s e.learnerId Mode.assessment hn

/-- C3 (counterexample): starting from an engine with no learners, a
channel-mismatch event for learner "l1" aborts with the channel error,
yet the engine state after the call differs from the state before it —
the learners map has gained a fresh profile for "l1", because the learner
lookup (with lazy creation) happens before the channel check. -/
theorem c3_counterexample :
    emptyEngine.learners.lookup "l1" = none ∧
    (applyAssessmentEvent emptyEngine exEventMismatch).1 =
      Except.error (ApplyError.channelContractViolation "reading" "visual") ∧
    (applyAssessmentEvent emptyEngine exEventMismatch).2.learners.lookup "l1" =
      some (freshLearner "l1" Mode.assessment) ∧
    (applyAssessmentEvent emptyEngine exEventMismatch).2 ≠ emptyEngine := by
  refine ⟨rfl, rfl, rfl, ?_⟩
  decide

theorem c3_witness :
    (applyAssessmentEvent emptyEngine exEventMismatch).2.universes = emptyEngine.universes :=
  (c3_failure_mutates_only_lazy_creation emptyEngine exEventMismatch
    (ApplyError.channelContractViolation "reading" "visual")
    (applyAssessmentEvent emptyEngine exEventMismatch).2 rfl).2.1

/-- C4: applying any event to a learner whose stored mode is `sandbox`
returns that learner's profile wrapped in `Except.ok` (never an error)
and leaves the whole engine state — skillStates, timeline, universes,
other learners — exactly as it was, even for events with a mismatched
channel or an unregistered universe. -/
theorem c4_sandbox_purity (s : EngineState) (e : AssessmentEvent) (p : LearnerProfile)
    (h1 : s.learners.lookup e.learnerId = some p) (h2 : p.mode = Mode.sandbox) :
    applyAssessmentEvent s e = (Except.ok p, s) := by
  simp [applyAssessmentEvent, getLearner_of_some s e.learnerId p h1, h2]

theorem c4_witness :
    applyAssessmentEvent exEngineSandbox exEventMismatch =
      (Except.ok (freshLearner "l1" Mode.sandbox), exEngineSandbox) :=
  c4_sandbox_purity exEngineSandbox exEventMismatch (freshLearner "l1" Mode.sandbox) rfl rfl

/-- C6: in assessment mode the channel error is raised exactly on a
channel mismatch (regardless of the universe, so the channel check
precedes the universe check), the universe error exactly when the channel
matches but the universe is unregistered, and a matching channel with a
registered universe yields `Except.ok`; a sandbox-mode learner always
gets `Except.ok`, so no other condition makes the call throw.  The last
two conjuncts pin the interpolated messages to the expected/actual
channel and the missing universe id. -/
theorem c6_error_conditions (s : EngineState) (e : AssessmentEvent) :
    ((getLearner s e.learnerId).1.mode = Mode.sandbox →
      (applyAssessmentEvent s e).1 = Except.ok (getLearner s e.learnerId).1) ∧
    ((getLearner s e.learnerId).1.mode = Mode.assessment →
      (e.signal.channel ≠ e.expectedNextChannel →
        (applyAssessmentEvent s e).1 =
          Except.error
            (ApplyError.channelContractViolation e.expectedNextChannel e.signal.channel)) ∧
      (e.signal.channel = e.expectedNextChannel →
        ((getLearner s e.learnerId).2.universes.lookup e.universeId = none →
          (applyAssessmentEvent s e).1 =
            Except.error (ApplyError.unregisteredUniverse e.universeId)) ∧
        (∀ u, (getLearner s e.learnerId).2.universes.lookup e.universeId = some u →
          (applyAssessmentEvent s e).1 =
            Except.ok (updatedLearner (getLearner s e.learnerId).1 e)))) ∧
    errorMessage (ApplyError.channelContractViolation e.expectedNextChannel e.signal.channel) =
      "RVKA contract violation: expected " ++ e.expectedNextChannel ++ ", got " ++
        e.signal.channel ∧
    errorMessage (ApplyError.unregisteredUniverse e.universeId) =
      "Universe " ++ e.universeId ++ " is not registered" := by
  refine ⟨?_, ?_, rfl, rfl⟩
  · intro hm
    simp [applyAssessmentEvent, hm]
  · intro hm
    have hns : ¬ ((getLearner s e.learnerId).1.mode = Mode.sandbox) := by
      rw [hm]
      simp
    refine ⟨?_, ?_⟩
    · intro hc
      simp [applyAssessmentEvent, hns, hc]
    · intro hc
      refine ⟨?_, ?_⟩
      · intro hu
        simp [applyAssessmentEvent, hns, hc, hu]
      · intro u hu
        simp [applyAssessmentEvent, hns, hc, hu]

theorem c6_witness :
    (applyAssessmentEvent exEngineAssessment exEventMismatch).1 =
      Except.error (ApplyError.channelContractViolation "reading" "visual") :=
  ((c6_error_conditions exEngineAssessment exEventMismatch).2.1 rfl).1 (by decide)

/-- Iterating `selectNextChannel` from `undefined` (src contract of
lines 135-149). -/
def channelSeq : Nat → String
  | 0 => selectNextChannel none
  | n + 1 => selectNextChannel (some (channelSeq n))

/-- C5: `selectNextChannel` maps `undefined` to reading, each channel to
its successor in the fixed RVKA order with auditory wrapping to reading,
and any string outside the four-channel set to reading; consequently
iterating it from `undefined` yields the periodic sequence
reading, visual, kinesthetic, auditory, … with period 4.  The function
takes no engine state at all. -/
theorem c5_channel_cycle :
    selectNextChannel none = "reading" ∧
    selectNextChannel (some "reading") = "visual" ∧
    selectNextChannel (some "visual") = "kinesthetic" ∧
    selectNextChannel (some "kinesthetic") = "auditory" ∧
    selectNextChannel (some "auditory") = "reading" ∧
    (∀ c, c ∉ RVKA_ORDER → selectNextChannel (some c) = "reading") ∧
    (∀ n, channelSeq n = RVKA_ORDER.getD (n % 4) "reading") := by
  refine ⟨rfl, rfl, rfl, rfl, rfl, ?_, ?_⟩
  · intro c hc
    simp only [RVKA_ORDER, List.mem_cons, List.not_mem_nil, or_false, not_or] at hc
    obtain ⟨h1, h2, h3, h4⟩ := hc
    have g1 : ¬ ("reading" = c) := fun h => h1 h.symm
    have g2 : ¬ ("visual" = c) := fun h => h2 h.symm
    have g3 : ¬ ("kinesthetic" = c) := fun h => h3 h.symm
    have g4 : ¬ ("auditory" = c) := fun h => h4 h.symm
    have hidx : jsIndexOf c RVKA_ORDER = -1 := by
      simp [jsIndexOf, RVKA_ORDER, g1, g2, g3, g4]
    simp only [selectNextChannel]
    rw [hidx]
    simp [RVKA_ORDER]
  · intro n
    induction n with
    | zero => rfl
    | succ n ih =>
      have h4 : n % 4 = 0 ∨ n % 4 = 1 ∨ n % 4 = 2 ∨ n % 4 = 3 := by omega
      rcases h4 with h | h | h | h
      · have hs : (n + 1) % 4 = 1 := by omega
        show selectNextChannel (some (channelSeq n)) = RVKA_ORDER.getD ((n + 1) % 4) "reading"
        rw [ih, h, hs]
        rfl
      · have hs : (n + 1) % 4 = 2 := by omega
        show selectNextChannel (some (channelSeq n)) = RVKA_ORDER.getD ((n + 1) % 4) "reading"
        rw [ih, h, hs]
        rfl
      · have hs : (n + 1) % 4 = 3 := by omega
        show selectNextChannel (some (channelSeq n)) = RVKA_ORDER.getD ((n + 1) % 4) "reading"
        rw [ih, h, hs]
        rfl
      · have hs : (n + 1) % 4 = 0 := by omega
        show selectNextChannel (some (channelSeq n)) = RVKA_ORDER.getD ((n + 1) % 4) "reading"
        rw [ih, h, hs]
        rfl

theorem c5_witness : selectNextChannel (some "braille") = "reading" :=
  c5_channel_cycle.2.2.2.2.2.1 "braille" (by decide)

/-- Misconception bookkeeping as worded by spec section 4.2 step 4:
"copy forward prior counts; if the signal carries a tag, increment that
tag's count by 1 (first occurrence creates the entry at 1)" — with no
emptiness test on the tag. -/
def bumpTagSpec (counts : List (String × ℚ)) (tag : Option String) : List (String × ℚ) :=
  match tag with
  | none => counts
  | some t => setAssoc t (((counts.lookup t).getD 0) + 1) counts

/-- The transition exactly as prescribed by spec section 4.2 steps 1-6,
written from the spec's words for comparison with `transitionSkillState`;
it differs from the source only in step 4 (see `bumpTagSpec`). -/
def specTransitionSkillState (previous : SkillState) (signal : SignalEnvelope) : SkillState :=
  let decay := decayOf previous signal.observedAt
  let recencyWeight := clamp (0.7 * previous.recencyWeight * decay + 0.3 * 1) 0 1
  let stability := clamp (0.65 * previous.stability * decay + 0.35 * signal.value) 0 1
  let transfer := clamp (0.7 * previous.transfer * decay + 0.3 * signal.transferEvidence) 0 1
  let reasoningQuality :=
    clamp (0.6 * previous.reasoningQuality * decay + 0.4 * signal.reasoningQuality) 0 1
  let momentumDelta := signal.value - previous.stability
  let momentum :=
    clamp (0.75 * previous.momentum * decay + 0.25 * ((momentumDelta + 1) / 2)) 0 1
  let misconceptionCounts := bumpTagSpec previous.misconceptionCounts signal.misconceptionTag
  let misconceptionPressure := pressureOf misconceptionCounts
  let fragility :=
    clamp (1 - (0.5 * stability + 0.2 * transfer + 0.3 * reasoningQuality)) 0 1
  let penalizedFragility := clamp (fragility + misconceptionPressure * 0.2) 0 1
  let masteryScore :=
    clamp (0.28 * stability + 0.22 * transfer + 0.18 * momentum +
      0.2 * reasoningQuality + 0.12 * recencyWeight - 0.18 * penalizedFragility) 0 1
  { skillId := previous.skillId
    stability := stability
    transfer := transfer
    momentum := momentum
    reasoningQuality := reasoningQuality
    recencyWeight := recencyWeight
    fragility := penalizedFragility
    misconceptionCounts := misconceptionCounts
    lastUpdatedAt := signal.observedAt
    masteryScore := masteryScore }

def exSignalEmptyTag : SignalEnvelope :=
  { exSignalOk with misconceptionTag := some "" }

/-- C1 (counterexample): a signal that carries the empty string as its
misconception tag.  The spec's step 4 prescribes incrementing that tag's
count to 1, but the source's JS truthiness test `if
(signal.misconceptionTag)` treats the empty string as absent, so the
code leaves the counts empty and even the penalized fragility differs
(0.7045 against the prescribed 0.7105). -/
theorem c1_counterexample :
    (transitionSkillState (emptySkillState "s1") exSignalEmptyTag).misconceptionCounts = [] ∧
    (specTransitionSkillState (emptySkillState "s1") exSignalEmptyTag).misconceptionCounts =
      [("", 1)] ∧
    (transitionSkillState (emptySkillState "s1") exSignalEmptyTag).fragility ≠
      (specTransitionSkillState (emptySkillState "s1") exSignalEmptyTag).fragility ∧
    transitionSkillState (emptySkillState "s1") exSignalEmptyTag ≠
      specTransitionSkillState (emptySkillState "s1") exSignalEmptyTag := by
  have h1 : (transitionSkillState (emptySkillState "s1") exSignalEmptyTag).fragility =
      0.7045 := by
    norm_num [transitionSkillState, bumpTag, pressureOf, clamp, jsMax, jsMin, decayOf,
      elapsedDaysOf, emptySkillState, exSignalEmptyTag, exSignalOk]
  have h2 : (specTransitionSkillState (emptySkillState "s1") exSignalEmptyTag).fragility =
      0.7105 := by
    norm_num [specTransitionSkillState, bumpTagSpec, setAssoc, pressureOf, clamp, jsMax,
      jsMin, decayOf, elapsedDaysOf, emptySkillState, exSignalEmptyTag, exSignalOk,
      List.lookup]
  have hfrag : (transitionSkillState (emptySkillState "s1") exSignalEmptyTag).fragility ≠
      (specTransitionSkillState (emptySkillState "s1") exSignalEmptyTag).fragility := by
    rw [h1, h2]
    norm_num
  refine ⟨rfl, ?_, hfrag, fun h => hfrag (congrArg SkillState.fragility h)⟩
  show bumpTagSpec (emptySkillState "s1").misconceptionCounts
      exSignalEmptyTag.misconceptionTag = [("", 1)]
  norm_num [bumpTagSpec, setAssoc, emptySkillState, exSignalEmptyTag, exSignalOk,
    List.lookup]

/-- C1 (amended): for every previous state and every signal whose
misconception tag is not the present-but-empty string, the transition
function returns exactly the state prescribed by spec section 4.2 steps
1-6 with the exact coefficients given there, and the output
`lastUpdatedAt` equals `signal.observedAt` verbatim.  (A signal carrying
the empty string as its tag is treated by the code as carrying none.) -/
theorem c1_transition_matches_spec (p : SkillState) (s : SignalEnvelope)
    (h : s.misconceptionTag ≠ some "") :
    transitionSkillState p s = specTransitionSkillState p s ∧
    (transitionSkillState p s).lastUpdatedAt = s.observedAt := by
  have hb : bumpTag p.misconceptionCounts s.misconceptionTag =
      bumpTagSpec p.misconceptionCounts s.misconceptionTag := by
    cases ht : s.misconceptionTag with
    | none => rfl
    | some t =>
      have hne : t ≠ "" := by
        intro he
        exact h (by rw [ht, he])
      simp [bumpTag, bumpTagSpec, hne]
  refine ⟨?_, rfl⟩
  simp only [transitionSkillState, specTransitionSkillState, hb]

theorem c1_witness :
    transitionSkillState (emptySkillState "s1") exSignalOk =
      specTransitionSkillState (emptySkillState "s1") exSignalOk :=
  (c1_transition_matches_spec (emptySkillState "s1") exSignalOk (by decide)).1

/-- C9: a successful assessment-mode event for a (learner, skill) pair
whose skill has no stored state computes and stores the transition taken
from the default prior state, and that default has all blend fields and
the mastery score 0, fragility 1, timestamp 0 and no misconception
counts. -/
theorem c9_first_event_uses_default_state (s : EngineState) (e : AssessmentEvent)
    (p : LearnerProfile) (s2 : EngineState)
    (hmode : (getLearner s e.learnerId).1.mode = Mode.assessment)
    (hnone : (getLearner s e.learnerId).1.skillStates.lookup e.skillId = none)
    (h : applyAssessmentEvent s e = (Except.ok p, s2)) :
    p.skillStates.lookup e.skillId =
      some (transitionSkillState (emptySkillState e.skillId) e.signal) ∧
    emptySkillState e.skillId =
      { skillId := e.skillId
        stability := 0
        transfer := 0
        momentum := 0
        reasoningQuality := 0
        recencyWeight := 0
        fragility := 1
        misconceptionCounts := []
        lastUpdatedAt := 0
        masteryScore := 0 } := by
  have hns : ¬ ((getLearner s e.learnerId).1.mode = Mode.sandbox) := by
    rw [hmode]
    simp
  simp only [applyAssessmentEvent] at h
  rw [if_neg hns] at h
  by_cases hc : e.signal.channel ≠ e.expectedNextChannel
  · rw [if_pos hc] at h
    simp at h
  · rw [if_neg hc] at h
    cases hu : (getLearner s e.learnerId).2.universes.lookup e.universeId with
    | none =>
      rw [hu] at h
      simp at h
    | some u =>
      rw [hu] at h
      rw [Prod.mk.injEq] at h
      have hp : updatedLearner (getLearner s e.learnerId).1 e = p := Except.ok.inj h.1
      subst hp
      refine ⟨?_, rfl⟩
      simp [updatedLearner, hnone, lookup_setAssoc_self]

theorem c9_witness :
    (((applyAssessmentEvent exEngineAssessment exEventOk).1.toOption.getD
        (freshLearner "l1" Mode.assessment)).skillStates.lookup "s1" =
      some (transitionSkillState (emptySkillState "s1") exEventOk.signal)) :=
  (c9_first_event_uses_default_state exEngineAssessment exEventOk
    ((applyAssessmentEvent exEngineAssessment exEventOk).1.toOption.getD
      (freshLearner "l1" Mode.assessment))
    (applyAssessmentEvent exEngineAssessment exEventOk).2
    rfl rfl rfl).1

/-- `snapshot` (src lines 189-191): a deep copy of purely immutable data
is the state itself in the embedding. -/
def snapshot (s : EngineState) : EngineState := s

/-- The timeline currently stored for a learner (empty when absent). -/
def timelineOf (s : EngineState) (l : String) : List TimelineEntry :=
  ((s.learners.lookup l).map LearnerProfile.timeline).getD []

/-- The mode currently stored for a learner; an absent learner behaves
like a fresh `assessment` one, which is what `ensureLearner` creates. -/
def modeOf (s : EngineState) (l : String) : Mode :=
  ((s.learners.lookup l).map LearnerProfile.mode).getD Mode.assessment

/-- One public engine operation, for quantifying over everything the
engine can do to its state. -/
inductive EngineOp where
  | registerUniverseOp (u : Universe)
  | ensureLearnerOp (learnerId : String) (mode : Mode)
  | setModeOp (learnerId : String) (mode : Mode)
  | getLearnerOp (learnerId : String)
  | applyAssessmentEventOp (e : AssessmentEvent)
  | snapshotOp

/-- The state effect of each engine operation. -/
def runOp (s : EngineState) : EngineOp → EngineState
  | EngineOp.registerUniverseOp u => registerUniverse s u
  | EngineOp.ensureLearnerOp learnerId mode => ensureLearner s learnerId mode
  | EngineOp.setModeOp learnerId mode => setMode s learnerId mode
  | EngineOp.getLearnerOp learnerId => (getLearner s learnerId).2
  | EngineOp.applyAssessmentEventOp e => (applyAssessmentEvent s e).2
  | EngineOp.snapshotOp => snapshot s

/-- Running a list of events, `none` as soon as one call throws. -/
def applyEvents : EngineState → List AssessmentEvent → Option EngineState
  | s, [] => some s
  | s, e :: es =>
    match applyAssessmentEvent s e with
    | (Except.ok _, s2) => applyEvents s2 es
    | (Except.error _, _) => none

theorem getLearner_fst_timeline (s : EngineState) (learnerId : String) :
    (getLearner s learnerId).1.timeline = timelineOf s learnerId := by
  cases h : s.learners.lookup learnerId with
  | some p =>
    rw [getLearner_of_some s learnerId p h]
    simp [timelineOf, h]
  | none =>
    rw [getLearner_of_none s learnerId h]
    simp [timelineOf, h, freshLearner]

theorem getLearner_fst_mode (s : EngineState) (learnerId : String) :
    (getLearner s learnerId).1.mode = modeOf s learnerId := by
  cases h : s.learners.lookup learnerId with
  | some p =>
    rw [getLearner_of_some s learnerId p h]
    simp [modeOf, h]
  | none =>
    rw [getLearner_of_none s learnerId h]
    simp [modeOf, h, freshLearner]

theorem timelineOf_ensureLearner (s : EngineState) (learnerId : String) (mode : Mode)
    (l : String) : timelineOf (ensureLearner s learnerId mode) l = timelineOf s l := by
  cases h : s.learners.lookup learnerId with
  | some p => rw [ensureLearner_lookup_some s learnerId mode p h]
  | none =>
    by_cases hl : l = learnerId
    · subst hl
      simp [ensureLearner, h, timelineOf, lookup_setAssoc_self, freshLearner]
    · simp [ensureLearner, h, timelineOf, lookup_setAssoc_ne _ _ _ _ hl]

theorem modeOf_ensureLearner (s : EngineState) (learnerId l : String) :
    modeOf (ensureLearner s learnerId Mode.assessment) l = modeOf s l := by
  cases h : s.learners.lookup learnerId with
  | some p => rw [ensureLearner_lookup_some s learnerId Mode.assessment p h]
  | none =>
    by_cases hl : l = learnerId
    · subst hl
      simp [ensureLearner, h, modeOf, lookup_setAssoc_self, freshLearner]
    · simp [ensureLearner, h, modeOf, lookup_setAssoc_ne _ _ _ _ hl]

theorem updatedLearner_timeline (L : LearnerProfile) (e : AssessmentEvent) :
    (updatedLearner L e).timeline = L.timeline ++
      [{ skillId := e.skillId
         timestamp := e.signal.observedAt
         masteryScore := (transitionSkillState
           ((L.skillStates.lookup e.skillId).getD (emptySkillState e.skillId))
           e.signal).masteryScore }] := rfl

theorem updatedLearner_lookup (L : LearnerProfile) (e : AssessmentEvent) :
    (updatedLearner L e).skillStates.lookup e.skillId =
      some (transitionSkillState
        ((L.skillStates.lookup e.skillId).getD (emptySkillState e.skillId)) e.signal) := by
  simp [updatedLearner, lookup_setAssoc_self]

theorem updatedLearner_mode (L : LearnerProfile) (e : AssessmentEvent) :
    (updatedLearner L e).mode = L.mode := rfl

theorem applyAssessmentEvent_ok_parts (s : EngineState) (e : AssessmentEvent)
    (p : LearnerProfile) (s2 : EngineState)
    (hmode : (getLearner s e.learnerId).1.mode = Mode.assessment)
    (h : applyAssessmentEvent s e = (Except.ok p, s2)) :
    p = updatedLearner (getLearner s e.learnerId).1 e ∧
    s2 = { (getLearner s e.learnerId).2 with
      learners := setAssoc e.learnerId (updatedLearner (getLearner s e.learnerId).1 e)
        (getLearner s e.learnerId).2.learners } := by
  have hns : ¬ ((getLearner s e.learnerId).1.mode = Mode.sandbox) := by
    rw [hmode]
    simp
  simp only [applyAssessmentEvent] at h
  rw [if_neg hns] at h
  by_cases hc : e.signal.channel ≠ e.expectedNextChannel
  · rw [if_pos hc] at h
    simp at h
  · rw [if_neg hc] at h
    cases hu : (getLearner s e.learnerId).2.universes.lookup e.universeId with
    | none =>
      rw [hu] at h
      simp at h
    | some u =>
      rw [hu] at h
      rw [Prod.mk.injEq] at h
      exact ⟨(Except.ok.inj h.1).symm, h.2.symm⟩

theorem timelineOf_ok_step (s : EngineState) (e : AssessmentEvent)
    (p : LearnerProfile) (s2 : EngineState)
    (hmode : (getLearner s e.learnerId).1.mode = Mode.assessment)
    (h : applyAssessmentEvent s e = (Except.ok p, s2)) :
    timelineOf s2 e.learnerId = timelineOf s e.learnerId ++
      [{ skillId := e.skillId
         timestamp := e.signal.observedAt
         masteryScore := (transitionSkillState
           (((getLearner s e.learnerId).1.skillStates.lookup e.skillId).getD
             (emptySkillState e.skillId))
           e.signal).masteryScore }] := by
  obtain ⟨hp, hs2⟩ := applyAssessmentEvent_ok_parts s e p s2 hmode h
  subst hs2
  have hL := getLearner_fst_timeline s e.learnerId
  simp only [timelineOf] at hL ⊢
  simp only [lookup_setAssoc_self, Option.map_some', Option.getD_some]
  rw [updatedLearner_timeline, hL]

theorem modeOf_set (s1 : EngineState) (k : String) (q : LearnerProfile) (l : String) :
    modeOf { s1 with learners := setAssoc k q s1.learners } l =
      if l = k then q.mode else modeOf s1 l := by
  by_cases hl : l = k
  · subst hl
    simp [modeOf, lookup_setAssoc_self]
  · simp [modeOf, hl, lookup_setAssoc_ne _ _ _ _ hl]

theorem timelineOf_set (s1 : EngineState) (k : String) (q : LearnerProfile) (l : String) :
    timelineOf { s1 with learners := setAssoc k q s1.learners } l =
      if l = k then q.timeline else timelineOf s1 l := by
  by_cases hl : l = k
  · subst hl
    simp [timelineOf, lookup_setAssoc_self]
  · simp [timelineOf, hl, lookup_setAssoc_ne _ _ _ _ hl]

theorem modeOf_applyAssessmentEvent (s : EngineState) (e : AssessmentEvent) (l : String) :
    modeOf (applyAssessmentEvent s e).2 l = modeOf s l := by
  have hens : modeOf (getLearner s e.learnerId).2 l = modeOf s l := by
    rw [getLearner_snd]
    exact modeOf_ensureLearner s e.learnerId l
  simp only [applyAssessmentEvent]
  split
  · exact hens
  · split
    · exact hens
    · split
      · exact hens
      · refine (modeOf_set (getLearner s e.learnerId).2 e.learnerId
          (updatedLearner (getLearner s e.learnerId).1 e) l).trans ?_
        by_cases hl : l = e.learnerId
        · rw [if_pos hl, updatedLearner_mode, getLearner_fst_mode, hl]
        · rw [if_neg hl]
          exact hens

theorem timelineOf_applyAssessmentEvent_snd (s : EngineState) (e : AssessmentEvent)
    (l : String) :
    ∃ t, timelineOf (applyAssessmentEvent s e).2 l = timelineOf s l ++ t := by
  have hens : timelineOf (getLearner s e.learnerId).2 l = timelineOf s l := by
    rw [getLearner_snd]
    exact timelineOf_ensureLearner s e.learnerId Mode.assessment l
  simp only [applyAssessmentEvent]
  split
  · exact ⟨[], by simp [hens]⟩
  · split
    · exact ⟨[], by simp [hens]⟩
    · split
      · exact ⟨[], by simp [hens]⟩
      · by_cases hl : l = e.learnerId
        · subst hl
          refine ⟨[{ skillId := e.skillId
                     timestamp := e.signal.observedAt
                     masteryScore := (transitionSkillState
                       (((getLearner s e.learnerId).1.skillStates.lookup e.skillId).getD
                         (emptySkillState e.skillId))
                       e.signal).masteryScore }], ?_⟩
          refine (timelineOf_set (getLearner s e.learnerId).2 e.learnerId
            (updatedLearner (getLearner s e.learnerId).1 e) e.learnerId).trans ?_
          rw [if_pos rfl, updatedLearner_timeline, getLearner_fst_timeline]
        · refine ⟨[], ?_⟩
          refine (timelineOf_set (getLearner s e.learnerId).2 e.learnerId
            (updatedLearner (getLearner s e.learnerId).1 e) l).trans ?_
          rw [if_neg hl, hens]
          simp

theorem timelineOf_setMode (s : EngineState) (learnerId : String) (mode : Mode)
    (l : String) : timelineOf (setMode s learnerId mode) l = timelineOf s l := by
  cases h : (ensureLearner s learnerId Mode.assessment).learners.lookup learnerId with
  | none =>
    simp only [setMode, h]
    exact timelineOf_ensureLearner s learnerId Mode.assessment l
  | some p =>
    simp only [setMode, h]
    refine (timelineOf_set (ensureLearner s learnerId Mode.assessment) learnerId
      { p with mode := mode } l).trans ?_
    by_cases hl : l = learnerId
    · subst hl
      rw [if_pos rfl]
      have hp : timelineOf (ensureLearner s l Mode.assessment) l = p.timeline := by
        simp [timelineOf, h]
      show p.timeline = timelineOf s l
      rw [← timelineOf_ensureLearner s l Mode.assessment l]
      exact hp.symm
    · rw [if_neg hl]
      exact timelineOf_ensureLearner s learnerId Mode.assessment l

theorem timelineOf_runOp (s : EngineState) (op : EngineOp) (l : String) :
    ∃ t, timelineOf (runOp s op) l = timelineOf s l ++ t := by
  cases op with
  | registerUniverseOp u => exact ⟨[], by simp [runOp, registerUniverse, timelineOf]⟩
  | ensureLearnerOp learnerId mode =>
    exact ⟨[], by simp [runOp, timelineOf_ensureLearner]⟩
  | setModeOp learnerId mode => exact ⟨[], by simp [runOp, timelineOf_setMode]⟩
  | getLearnerOp learnerId =>
    refine ⟨[], ?_⟩
    show timelineOf (getLearner s learnerId).2 l = timelineOf s l ++ []
    rw [getLearner_snd, timelineOf_ensureLearner]
    simp
  | applyAssessmentEventOp e => exact timelineOf_applyAssessmentEvent_snd s e l
  | snapshotOp => exact ⟨[], by simp [runOp, snapshot]⟩

theorem applyEvents_timeline_length (es : List AssessmentEvent) :
    ∀ (s s2 : EngineState) (l : String), modeOf s l = Mode.assessment →
      (∀ e ∈ es, e.learnerId = l) → applyEvents s es = some s2 →
      (timelineOf s2 l).length = (timelineOf s l).length + es.length := by
  induction es with
  | nil =>
    intro s s2 l _ _ happ
    simp only [applyEvents] at happ
    cases happ
    simp
  | cons e es ih =>
    intro s s2 l hmode hall happ
    simp only [applyEvents] at happ
    rcases hstep : applyAssessmentEvent s e with ⟨r, s1⟩
    rw [hstep] at happ
    cases r with
    | error err => simp at happ
    | ok p =>
      simp only [] at happ
      have hlid : e.learnerId = l := hall e (List.mem_cons_self e es)
      have hgm : (getLearner s e.learnerId).1.mode = Mode.assessment := by
        rw [getLearner_fst_mode, hlid, hmode]
      have htl := timelineOf_ok_step s e p s1 hgm hstep
      rw [hlid] at htl
      have hs1snd : (applyAssessmentEvent s e).2 = s1 := by rw [hstep]
      have hm1 : modeOf s1 l = Mode.assessment := by
        rw [← hs1snd, modeOf_applyAssessmentEvent, hmode]
      have hrest := ih s1 s2 l hm1 (fun x hx => hall x (List.mem_cons_of_mem e hx)) happ
      rw [hrest, htl]
      simp [List.length_append]
      omega

/-- C8: (1) every successful assessment-mode call appends exactly one
timeline entry holding the event's skillId, the signal's observedAt, and
the mastery score of the newly stored skill state; (2) after a sequence
of N successful assessment-mode calls for a learner, that learner's
timeline has grown by exactly N entries (in call order, by (1)); (3) no
engine operation ever removes or reorders existing timeline entries —
the old timeline is always a prefix of the new one. -/
theorem c8_append_only_timeline :
    (∀ (s : EngineState) (e : AssessmentEvent) (p : LearnerProfile) (s2 : EngineState),
      (getLearner s e.learnerId).1.mode = Mode.assessment →
      applyAssessmentEvent s e = (Except.ok p, s2) →
      ∃ st, p.skillStates.lookup e.skillId = some st ∧
        s2.learners.lookup e.learnerId = some p ∧
        timelineOf s2 e.learnerId = timelineOf s e.learnerId ++
          [{ skillId := e.skillId
             timestamp := e.signal.observedAt
             masteryScore := st.masteryScore }]) ∧
    (∀ (s : EngineState) (es : List AssessmentEvent) (s2 : EngineState) (l : String),
      modeOf s l = Mode.assessment → (∀ e ∈ es, e.learnerId = l) →
      applyEvents s es = some s2 →
      (timelineOf s2 l).length = (timelineOf s l).length + es.length) ∧
    (∀ (s : EngineState) (op : EngineOp) (l : String),
      ∃ t, timelineOf (runOp s op) l = timelineOf s l ++ t) := by
  refine ⟨?_, ?_, timelineOf_runOp⟩
  · intro s e p s2 hmode h
    obtain ⟨hp, hs2⟩ := applyAssessmentEvent_ok_parts s e p s2 hmode h
    refine ⟨transitionSkillState
      (((getLearner s e.learnerId).1.skillStates.lookup e.skillId).getD
        (emptySkillState e.skillId)) e.signal, ?_, ?_, ?_⟩
    · rw [hp]
      exact updatedLearner_lookup (getLearner s e.learnerId).1 e
    · rw [hs2, hp]
      exact lookup_setAssoc_self e.learnerId _ _
    · exact timelineOf_ok_step s e p s2 hmode h
  · intro s es s2 l hmode hall happ
    exact applyEvents_timeline_length es s s2 l hmode hall happ

theorem c8_witness :
    (timelineOf ((applyEvents exEngineAssessment [exEventOk, exEventOk]).getD emptyEngine)
      "l1").length = (timelineOf exEngineAssessment "l1").length + 2 :=
  c8_append_only_timeline.2.1 exEngineAssessment [exEventOk, exEventOk]
    ((applyEvents exEngineAssessment [exEventOk, exEventOk]).getD emptyEngine) "l1"
    rfl (by decide) rfl

end LearnSphere
